import Mathlib

/-!
Verification of the chat registry, tagging wizard and broadcast wizard logic of
the Telegram admin bot implemented in src/main.py.

The registry table is embedded as a list of records in storage order; SQL
queries become list filters, sorts and maps. The process-wide per-user state
dictionaries become total functions from user id to an optional value, and the
callback handlers become pure functions from a global state to a new global
state paired with the answer shown to the user. Fallible external calls (the
per-target message delivery in the fan-out loop, the per-statement database
commits) are given an explicit success/failure oracle.
-/

set_option maxRecDepth 4000

namespace AFC

/-- Lexicographic comparison of character lists by code point. Models the
ascending text ordering used by `ORDER BY title ASC` in the registry queries. -/
def lexLe : List Char → List Char → Bool
  | [], _ => true
  | _ :: _, [] => false
  | a :: as, b :: bs =>
      if a.toNat < b.toNat then true
      else if b.toNat < a.toNat then false
      else lexLe as bs

/-- One row of the `chats` table (src/main.py lines 76-86): primary key
`chat_id`, display title, chat kind, the three optional tag columns added by
the migrations, and the last-write timestamp. -/
structure ChatRecord where
  chat_id : Int
  title : String
  chat_type : String
  branch : Option String
  age : Option String
  level : Option String
  updated_at : Nat
  deriving Repr, DecidableEq

/-- The ascending-title ordering on registry rows. -/
def titleLe (a b : ChatRecord) : Prop := lexLe a.title.toList b.title.toList = true

instance : DecidableRel titleLe := fun a b =>
  inferInstanceAs (Decidable (lexLe a.title.toList b.title.toList = true))

/-- `ORDER BY title ASC`: a sort of the rows by title. -/
def sortByTitle (l : List ChatRecord) : List ChatRecord := List.insertionSort titleLe l

/-! ### Tag vocabularies (src/main.py lines 41-62) -/

def AGE_TAGS : List (String × String) :=
  [("baby", "👶 Бейби"), ("kids", "🧒 Дети"), ("junior", "🧑‍🎓 Юниоры"),
   ("adult", "🧑 Взрослые"), ("mom", "🤱 Мамочки")]

def LEVEL_TAGS : List (String × String) :=
  [("beginner", "🟢 Начинающие"), ("middle", "🟡 Продолжающие"), ("pro", "🔴 Профи")]

def BRANCH_TAGS : List (String × String) :=
  [("krylatskoe", "📍 Крылатское"), ("odintsovo", "📍 Одинцово")]

def ALL_AGE_TAGS : Finset String := (AGE_TAGS.map Prod.fst).toFinset

def ALL_LEVEL_TAGS : Finset String := (LEVEL_TAGS.map Prod.fst).toFinset

def ALL_BRANCH_TAGS : Finset String := (BRANCH_TAGS.map Prod.fst).toFinset

/-! ### Registry operations (src/main.py lines 90-177) -/

/-- `SELECT * FROM chats WHERE chat_id=%s` + `fetchone` (db_get_chat). -/
def db_get_chat (db : List ChatRecord) (chat_id : Int) : Option ChatRecord :=
  db.find? (fun r => decide (r.chat_id = chat_id))

/-- `SELECT * FROM chats ORDER BY title ASC` (db_get_all_chats). -/
def db_get_all_chats (db : List ChatRecord) : List ChatRecord := sortByTitle db

/-- `SELECT * FROM chats WHERE branch=%s ORDER BY title ASC` (db_get_chats_by_branch).
A row with NULL branch never satisfies the equality. -/
def db_get_chats_by_branch (db : List ChatRecord) (branch : String) : List ChatRecord :=
  sortByTitle (db.filter (fun r => decide (r.branch = some branch)))

/-- The single-row effect of `UPDATE chats SET {field}=%s, updated_at=NOW()`. -/
def set_field_record (r : ChatRecord) (field : String) (value : Option String) (now : Nat) :
    ChatRecord :=
  { r with branch := if field = "branch" then value else r.branch,
           age := if field = "age" then value else r.age,
           level := if field = "level" then value else r.level,
           updated_at := now }

/-- db_set_field (lines 131-137): rejects a field outside branch/age/level with
ValueError (modelled as `none`), otherwise updates every row with the given
chat id, refreshing `updated_at`. -/
def db_set_field (db : List ChatRecord) (chat_id : Int) (field : String)
    (value : Option String) (now : Nat) : Option (List ChatRecord) :=
  if field = "branch" ∨ field = "age" ∨ field = "level" then
    some (db.map (fun r => if r.chat_id = chat_id then set_field_record r field value now else r))
  else none

/-- db_get_next_missing_branch_chat (lines 140-149):
`SELECT * FROM chats WHERE branch IS NULL ORDER BY title ASC LIMIT 1`. -/
def db_get_next_missing_branch_chat (db : List ChatRecord) : Option ChatRecord :=
  (sortByTitle (db.filter (fun r => decide (r.branch = none)))).head?

/-- db_get_next_missing_age_or_level_chat (lines 152-162):
`SELECT * FROM chats WHERE age IS NULL OR level IS NULL ORDER BY title ASC LIMIT 1`. -/
def db_get_next_missing_age_or_level_chat (db : List ChatRecord) : Option ChatRecord :=
  (sortByTitle (db.filter (fun r => decide (r.age = none ∨ r.level = none)))).head?

/-- `age = ANY(%s)` on an optional column: NULL matches nothing. -/
def optTagMem (o : Option String) (s : Finset String) : Bool :=
  match o with
  | none => false
  | some v => decide (v ∈ s)

/-- db_get_chats_by_filter (lines 165-177): empty `ages` or `levels` returns []
immediately; otherwise
`SELECT chat_id FROM chats WHERE branch=%s AND age = ANY(%s) AND level = ANY(%s) ORDER BY title ASC`. -/
def db_get_chats_by_filter (db : List ChatRecord) (branch : String)
    (ages levels : Finset String) : List Int :=
  if ages = ∅ ∨ levels = ∅ then []
  else
    (sortByTitle (db.filter (fun r =>
      decide (r.branch = some branch) && optTagMem r.age ages && optTagMem r.level levels))).map
      (fun r => r.chat_id)

/-- `chat.title or str(chat.id)`: a missing or empty title falls back to the
stringified chat id. -/
def title_or_id (title : Option String) (chat_id : Int) : String :=
  match title with
  | none => toString chat_id
  | some t => if t = "" then toString chat_id else t

/-- db_upsert_chat (lines 90-103): a no-op unless the chat kind is group or
supergroup; otherwise `INSERT ... ON CONFLICT (chat_id) DO UPDATE SET title,
chat_type, updated_at` — the conflict branch never touches the tag columns. -/
def db_upsert_chat (db : List ChatRecord) (chat_id : Int) (title : Option String)
    (chat_type : String) (now : Nat) : List ChatRecord :=
  if chat_type ≠ "group" ∧ chat_type ≠ "supergroup" then db
  else if db.any (fun r => decide (r.chat_id = chat_id)) then
    db.map (fun r => if r.chat_id = chat_id then
      { r with title := title_or_id title chat_id, chat_type := chat_type, updated_at := now }
      else r)
  else
    db ++ [{ chat_id := chat_id, title := title_or_id title chat_id, chat_type := chat_type,
             branch := none, age := none, level := none, updated_at := now }]

/-! ### Per-user state dictionaries and the global wizard state
(src/main.py lines 219-244) -/

/-- A Python dict keyed by user id, embedded as a total function to an
optional value. -/
def PDict (α : Type) : Type := Int → Option α

def pempty {α : Type} : PDict α := fun _ => none

/-- `d.get(k)`. -/
def pget {α : Type} (d : PDict α) (k : Int) : Option α := d k

/-- `d[k] = v`. -/
def pset {α : Type} (d : PDict α) (k : Int) (v : α) : PDict α :=
  fun q => if q = k then some v else d q

/-- `d.pop(k, None)`. -/
def ppop {α : Type} (d : PDict α) (k : Int) : PDict α :=
  fun q => if q = k then none else d q

/-- The process-wide mutable state: the chats table plus every per-user
dictionary declared in the STATES section of src/main.py. -/
structure BotState where
  db : List ChatRecord
  STATE : PDict String
  BC_SELECTED_BRANCH : PDict String
  BC_SELECTED_AGES : PDict (Finset String)
  BC_SELECTED_LEVELS : PDict (Finset String)
  BC_TARGET_CHATS : PDict (Finset Int)
  BC_MANUAL_SELECTED : PDict (Finset Int)
  BC_MANUAL_PAGE : PDict Int
  BR_STATE : PDict String
  BR_TARGET_CHAT : PDict Int
  BR_AUTO_NEXT : PDict Bool
  AL_STATE : PDict String
  AL_TARGET_CHAT : PDict Int
  AL_TEMP_AGE : PDict String
  AL_AUTO_NEXT : PDict Bool
  EDIT_STATE : PDict String
  EDIT_BRANCH : PDict String
  EDIT_PAGE : PDict Int
  EDIT_CHAT : PDict Int

/-- A state whose registry is `db` and in which no wizard session exists. -/
def emptyState (db : List ChatRecord) : BotState :=
  ⟨db, pempty, pempty, pempty, pempty, pempty, pempty, pempty, pempty, pempty,
   pempty, pempty, pempty, pempty, pempty, pempty, pempty, pempty, pempty⟩

/-- The visible effect of answering a callback query: a silent ack, a toast
text, or an alert popup. -/
inductive CbAnswer
  | silent
  | toast (msg : String)
  | alert (msg : String)
  deriving Repr, DecidableEq

/-- Structural worker for `chunk_list`; the fuel starts at the list length and
strictly exceeds the number of chunks whenever the chunk size is positive. -/
def chunk_list_go {α : Type} (fuel : Nat) (items : List α) (size : Nat) : List (List α) :=
  match fuel with
  | 0 => []
  | fuel + 1 =>
      if size = 0 ∨ items.length = 0 then []
      else items.take size :: chunk_list_go fuel (items.drop size) size

/-- chunk_list (lines 211-212): split a list into consecutive chunks of the
given size (the source only ever calls it with size 15). -/
def chunk_list {α : Type} (items : List α) (size : Nat) : List (List α) :=
  chunk_list_go items.length items size

/-- The number of pages shown by a paginated keyboard: `pages = [[]]` is
substituted when the chunk list is empty. -/
def pages_count {α : Type} (chats : List α) (per_page : Nat) : Nat :=
  let pages := chunk_list chats per_page
  if pages.isEmpty then 1 else pages.length

/-- kb_edit_chat_list (lines 404-435), state effect only: reads the edit
branch filter (defaulting to "all"), lists the matching chats, and clamps the
stored page index into the valid page range. -/
def kb_edit_chat_list (s : BotState) (uid : Int) : BotState :=
  let branch := (pget s.EDIT_BRANCH uid).getD "all"
  let chats := if branch = "all" then db_get_all_chats s.db else db_get_chats_by_branch s.db branch
  let page := (pget s.EDIT_PAGE uid).getD 0
  let numPages := pages_count chats 15
  let clamped := max 0 (min page ((numPages : Int) - 1))
  { s with EDIT_PAGE := pset s.EDIT_PAGE uid clamped }

/-- kb_bc_manual_pick (lines 365-401), state effect only: reads the selected
broadcast branch (no branch means no candidate chats), lists its chats, and
clamps the stored manual-pick page index into the valid page range. -/
def kb_bc_manual_pick (s : BotState) (uid : Int) : BotState :=
  let chats : List ChatRecord := match pget s.BC_SELECTED_BRANCH uid with
    | some branch => db_get_chats_by_branch s.db branch
    | none => []
  let page := (pget s.BC_MANUAL_PAGE uid).getD 0
  let numPages := pages_count chats 15
  let clamped := max 0 (min page ((numPages : Int) - 1))
  { s with BC_MANUAL_PAGE := pset s.BC_MANUAL_PAGE uid clamped }

/-! ### Callback handlers (pure state transformers) -/

/-- br_set_branch (lines 672-715): guarded by the `br_choose_branch` stage;
validates the branch tag, writes it to the target chat, clears the session and,
when auto-advance is on, re-enters the stage for the next untagged chat. -/
def br_set_branch (s : BotState) (uid : Int) (branch : String) (now : Nat) :
    BotState × CbAnswer :=
  if pget s.BR_STATE uid ≠ some "br_choose_branch" then (s, .toast "Неактуально")
  else match pget s.BR_TARGET_CHAT uid with
  | none => (s, .alert "Ошибка: чат не выбран")
  | some chat_id =>
      if branch ∉ ALL_BRANCH_TAGS then (s, .alert "Неизвестный филиал")
      else
        let db1 := (db_set_field s.db chat_id "branch" (some branch) now).getD s.db
        let s1 := { s with db := db1, BR_STATE := ppop s.BR_STATE uid,
                           BR_TARGET_CHAT := ppop s.BR_TARGET_CHAT uid }
        if pget s1.BR_AUTO_NEXT uid = some true then
          match db_get_next_missing_branch_chat s1.db with
          | none => ({ s1 with BR_AUTO_NEXT := ppop s1.BR_AUTO_NEXT uid }, .silent)
          | some row =>
              ({ s1 with BR_TARGET_CHAT := pset s1.BR_TARGET_CHAT uid row.chat_id,
                         BR_STATE := pset s1.BR_STATE uid "br_choose_branch" }, .silent)
        else (s1, .silent)

/-- al_pick_age (lines 764-786): guarded by the `al_choose_age` stage;
validates the age tag, stores it in the temporary slot and advances the
session to the level stage. -/
def al_pick_age (s : BotState) (uid : Int) (age : String) : BotState × CbAnswer :=
  if pget s.AL_STATE uid ≠ some "al_choose_age" then (s, .toast "Неактуально")
  else if age ∉ ALL_AGE_TAGS then (s, .alert "Неизвестный возраст")
  else ({ s with AL_TEMP_AGE := pset s.AL_TEMP_AGE uid age,
                 AL_STATE := pset s.AL_STATE uid "al_choose_level" }, .silent)

/-- al_pick_level (lines 789-838): guarded by the `al_choose_level` stage;
validates the level tag, requires a pending chat and a stored (truthy) age,
writes the age and the level with two UPDATE statements, clears the session
and, when auto-advance is on, re-enters the age stage for the next unfinished
chat. -/
def al_pick_level (s : BotState) (uid : Int) (level : String) (now : Nat) :
    BotState × CbAnswer :=
  if pget s.AL_STATE uid ≠ some "al_choose_level" then (s, .toast "Неактуально")
  else if level ∉ ALL_LEVEL_TAGS then (s, .alert "Неизвестный уровень")
  else match pget s.AL_TARGET_CHAT uid, pget s.AL_TEMP_AGE uid with
  | some chat_id, some age =>
      if age = "" then (s, .alert "Ошибка состояния")
      else
        let db1 := (db_set_field s.db chat_id "age" (some age) now).getD s.db
        let db2 := (db_set_field db1 chat_id "level" (some level) now).getD db1
        let s1 := { s with db := db2, AL_STATE := ppop s.AL_STATE uid,
                           AL_TARGET_CHAT := ppop s.AL_TARGET_CHAT uid,
                           AL_TEMP_AGE := ppop s.AL_TEMP_AGE uid }
        if pget s1.AL_AUTO_NEXT uid = some true then
          match db_get_next_missing_age_or_level_chat s1.db with
          | none => ({ s1 with AL_AUTO_NEXT := ppop s1.AL_AUTO_NEXT uid }, .silent)
          | some row =>
              ({ s1 with AL_TARGET_CHAT := pset s1.AL_TARGET_CHAT uid row.chat_id,
                         AL_STATE := pset s1.AL_STATE uid "al_choose_age",
                         AL_TEMP_AGE := ppop s1.AL_TEMP_AGE uid }, .silent)
        else (s1, .silent)
  | _, _ => (s, .alert "Ошибка состояния")

/-- edit_page_next (lines 909-914): no owner check and no stage check — it
unconditionally bumps the user's edit page and re-renders (which clamps it). -/
def edit_page_next (s : BotState) (uid : Int) : BotState × CbAnswer :=
  let newPage := (pget s.EDIT_PAGE uid).getD 0 + 1
  let s1 := { s with EDIT_PAGE := pset s.EDIT_PAGE uid newPage }
  (kb_edit_chat_list s1 uid, .silent)

/-- bc_mpage_next (lines 1250-1255): no owner check and no stage check — it
unconditionally bumps the user's manual-pick page and re-renders. -/
def bc_mpage_next (s : BotState) (uid : Int) : BotState × CbAnswer :=
  let newPage := (pget s.BC_MANUAL_PAGE uid).getD 0 + 1
  let s1 := { s with BC_MANUAL_PAGE := pset s.BC_MANUAL_PAGE uid newPage }
  (kb_bc_manual_pick s1 uid, .silent)

/-- edit_back_to_list (lines 967-975): no owner check and no stage check — it
unconditionally forces the user's edit session into the `edit_pick_chat` stage
and re-renders the chat list. -/
def edit_back_to_list (s : BotState) (uid : Int) : BotState × CbAnswer :=
  let s1 := { s with EDIT_STATE := pset s.EDIT_STATE uid "edit_pick_chat" }
  (kb_edit_chat_list s1 uid, .silent)

/-- edit_pick_chat (lines 929-964): guarded by the `edit_pick_chat` stage; the
chat id argument is the already-parsed numeric suffix of the `edit_chat_`
token (the handler rejects non-numeric suffixes before this point); requires
the chat to exist in the registry, then records it and enters `edit_menu`. -/
def edit_pick_chat (s : BotState) (uid : Int) (chat_id : Int) : BotState × CbAnswer :=
  if pget s.EDIT_STATE uid ≠ some "edit_pick_chat" then (s, .toast "Неактуально")
  else match db_get_chat s.db chat_id with
  | none => (s, .alert "Чат не найден в базе")
  | some _ =>
      ({ s with EDIT_CHAT := pset s.EDIT_CHAT uid chat_id,
                EDIT_STATE := pset s.EDIT_STATE uid "edit_menu" }, .silent)

/-- edit_clear_branch (lines 1039-1054): guarded by the `edit_menu` stage with
a recorded chat; clears the chat's branch column. -/
def edit_clear_branch (s : BotState) (uid : Int) (now : Nat) : BotState × CbAnswer :=
  match pget s.EDIT_CHAT uid with
  | none => (s, .toast "Неактуально")
  | some chat_id =>
      if pget s.EDIT_STATE uid ≠ some "edit_menu" then (s, .toast "Неактуально")
      else ({ s with db := (db_set_field s.db chat_id "branch" none now).getD s.db }, .silent)

/-- The candidate chat-id set of the manual-pick screen: every chat of the
selected branch (no branch means no candidates), as computed at the top of
bc_mpick_all (lines 1265-1267). -/
def bc_manual_candidate_ids (s : BotState) (uid : Int) : Finset Int :=
  let chats : List ChatRecord := match pget s.BC_SELECTED_BRANCH uid with
    | some branch => db_get_chats_by_branch s.db branch
    | none => []
  (chats.map (fun r => r.chat_id)).toFinset

/-- bc_mpick_all (lines 1258-1277): guarded by the `bc_manual_pick` stage;
if the current selection equals the candidate set it is cleared, otherwise it
is replaced by the candidate set; then the keyboard is re-rendered. -/
def bc_mpick_all (s : BotState) (uid : Int) : BotState × CbAnswer :=
  if pget s.STATE uid ≠ some "bc_manual_pick" then (s, .toast "Неактуально")
  else
    let all_ids := bc_manual_candidate_ids s uid
    let selected := (pget s.BC_MANUAL_SELECTED uid).getD ∅
    let newSel := if selected = all_ids then (∅ : Finset Int) else all_ids
    let s1 := { s with BC_MANUAL_SELECTED := pset s.BC_MANUAL_SELECTED uid newSel }
    (kb_bc_manual_pick s1 uid, .toast "Ок")

/-! ### Owner check, fan-out, combined save -/

/-- is_owner_user_id (lines 183-184), with the parsed OWNER_ID passed
explicitly: true only for a nonzero owner id equal to the user id. -/
def is_owner_user_id (owner_id user_id : Int) : Bool :=
  decide (owner_id ≠ 0) && decide (user_id = owner_id)

/-- The fan-out loop of any_message (lines 1492-1504): iterates the target
list in order, attempts each delivery (the oracle says which targets fail),
counts successes and failures independently, and never aborts early. Returns
the attempted targets in order together with the success and failure tallies
reported to the owner. -/
def fanout (chat_ids : List Int) (delivery_fails : Int → Bool) : List Int × Nat × Nat :=
  chat_ids.foldl
    (fun acc cid =>
      if delivery_fails cid then (acc.1 ++ [cid], acc.2.1, acc.2.2 + 1)
      else (acc.1 ++ [cid], acc.2.1 + 1, acc.2.2))
    ([], 0, 0)

/-- Lines 808-810 of al_pick_level: the combined save is two independently
committed UPDATE statements, age first, then level. The two booleans say
whether each statement's transaction succeeds; a failing statement raises,
aborting the handler with the registry as committed so far. Returns the
resulting registry and whether the save completed without error. -/
def al_save_age_level (db : List ChatRecord) (chat_id : Int) (age level : String)
    (age_write_ok level_write_ok : Bool) (now : Nat) : List ChatRecord × Bool :=
  if !age_write_ok then (db, false)
  else
    let db1 := (db_set_field db chat_id "age" (some age) now).getD db
    if !level_write_ok then (db1, false)
    else ((db_set_field db1 chat_id "level" (some level) now).getD db1, true)

/-! ### Callback tokens (emission in kb_bc_manual_pick, parsing in
bc_mpick_toggle) and OWNER_ID parsing -/

/-- Python str() of a nonnegative integer: its decimal digits. -/
def pyStrNat (n : Nat) : List Char :=
  if n = 0 then ['0'] else (Nat.digits 10 n).reverse.map Nat.digitChar

/-- Python str() of an integer: a single leading minus sign for negatives. -/
def pyStrInt (i : Int) : List Char :=
  if i < 0 then '-' :: pyStrNat i.natAbs else pyStrNat i.toNat

/-- The manual-pick row token emitted at line 385 of kb_bc_manual_pick: the
action tag followed by the stringified chat id. -/
def kb_bc_manual_pick_token (cid : Int) : List Char := "bc_mpick_".toList ++ pyStrInt cid

/-- Splitting on the underscore and taking the last element: the suffix after
the last underscore (the whole string when no underscore occurs). -/
def lastSegment (l : List Char) : List Char :=
  (l.reverse.takeWhile (fun c => decide (c ≠ '_'))).reverse

/-- Python lstrip with the minus sign: drop every leading minus. -/
def pyLstripMinus (l : List Char) : List Char := l.dropWhile (fun c => decide (c = '-'))

/-- Python str.isdigit: nonempty and all digit characters. -/
def pyIsDigitStr (l : List Char) : Bool := !l.isEmpty && l.all (fun c => c.isDigit)

/-- The numeric value of a digit character. -/
def digitVal (c : Char) : Nat := c.toNat - 48

/-- The value of a big-endian digit string. -/
def pyParseNat (l : List Char) : Nat := Nat.ofDigits 10 (l.reverse.map digitVal)

/-- Python int() on a decimal string: an optional single leading minus sign
followed by digits; anything else raises (modelled as `none`). -/
def pyInt (l : List Char) : Option Int :=
  if l.head? = some '-' then
    (if pyIsDigitStr l.tail then some (-(pyParseNat l.tail : Int)) else none)
  else if pyIsDigitStr l then some ((pyParseNat l : Int)) else none

/-- Python str.startswith. -/
def pyStartsWith (pre l : List Char) : Bool := decide (l.take pre.length = pre)

/-- bc_mpick_toggle (lines 1221-1230), parsing part: the registration filter
requires the `bc_mpick_` action tag and a numeric (possibly minus-signed) last
underscore-separated segment, and the handler then recovers the chat id with
int() on that segment. -/
def bc_mpick_toggle_parse (data : List Char) : Option Int :=
  if pyStartsWith "bc_mpick_".toList data && pyIsDigitStr (pyLstripMinus (lastSegment data)) then
    pyInt (lastSegment data)
  else none

/-- OWNER_ID parsing (lines 21-27): os.getenv("OWNER_ID", "0") parsed with
int(); any parse failure yields 0. -/
def owner_id_of (raw : Option String) : Int := (pyInt (raw.getD "0").toList).getD 0

/-- The registry used by the C6 failing-input evaluation: one supergroup
already tagged with a branch. -/
def c6_db : List ChatRecord :=
  [⟨-1001, "Chat A", "supergroup", some "krylatskoe", some "kids", some "pro", 0⟩]

/-- A concrete manual-pick situation: owner 7 in the manual-pick stage for
branch krylatskoe, candidate chats 1 and 2, chat 1 currently selected. -/
def c2_s0 : BotState :=
  { emptyState
      [⟨1, "A", "group", some "krylatskoe", none, none, 0⟩,
       ⟨2, "B", "group", some "krylatskoe", none, none, 0⟩] with
    STATE := pset pempty 7 "bc_manual_pick",
    BC_SELECTED_BRANCH := pset pempty 7 "krylatskoe",
    BC_MANUAL_SELECTED := pset pempty 7 {1} }

/-! ## Theorems -/

/-! ### The title order -/

theorem lexLe_refl (l : List Char) : lexLe l l = true := by
  induction l with
  | nil => rfl
  | cons a as ih => simp [lexLe, ih]

theorem lexLe_total (a b : List Char) : lexLe a b = true ∨ lexLe b a = true := by
  induction a generalizing b with
  | nil => left; rfl
  | cons x xs ih =>
      cases b with
      | nil => right; rfl
      | cons y ys =>
          by_cases h1 : x.toNat < y.toNat
          · left; simp [lexLe, h1]
          · by_cases h2 : y.toNat < x.toNat
            · right; simp [lexLe, h2]
            · rcases ih ys with h | h
              · left; simp [lexLe, h1, h2, h]
              · right; simp [lexLe, h1, h2, h]

theorem lexLe_trans {a : List Char} : ∀ {b c : List Char},
    lexLe a b = true → lexLe b c = true → lexLe a c = true := by
  induction a with
  | nil => intro b c _ _; rfl
  | cons x xs ih =>
      intro b c hab hbc
      cases b with
      | nil => simp [lexLe] at hab
      | cons y ys =>
          cases c with
          | nil => simp [lexLe] at hbc
          | cons z zs =>
              simp only [lexLe] at hab hbc ⊢
              by_cases hxy : x.toNat < y.toNat
              · rw [if_pos hxy] at hab
                by_cases hyz : y.toNat < z.toNat
                · rw [if_pos (show x.toNat < z.toNat by omega)]
                · rw [if_neg hyz] at hbc
                  by_cases hzy : z.toNat < y.toNat
                  · rw [if_pos hzy] at hbc; exact absurd hbc (by simp)
                  · rw [if_pos (show x.toNat < z.toNat by omega)]
              · rw [if_neg hxy] at hab
                by_cases hyx : y.toNat < x.toNat
                · rw [if_pos hyx] at hab; exact absurd hab (by simp)
                · rw [if_neg hyx] at hab
                  by_cases hyz : y.toNat < z.toNat
                  · rw [if_pos (show x.toNat < z.toNat by omega)]
                  · rw [if_neg hyz] at hbc
                    by_cases hzy : z.toNat < y.toNat
                    · rw [if_pos hzy] at hbc; exact absurd hbc (by simp)
                    · rw [if_neg hzy] at hbc
                      rw [if_neg (show ¬ x.toNat < z.toNat by omega),
                          if_neg (show ¬ z.toNat < x.toNat by omega)]
                      exact ih hab hbc

theorem mem_sortByTitle {r : ChatRecord} {l : List ChatRecord} : r ∈ sortByTitle l ↔ r ∈ l :=
  (List.perm_insertionSort titleLe l).mem_iff

theorem sortByTitle_eq_nil_iff {l : List ChatRecord} : sortByTitle l = [] ↔ l = [] := by
  constructor
  · intro h
    have hlen := (List.perm_insertionSort titleLe l).length_eq
    rw [show List.insertionSort titleLe l = sortByTitle l from rfl, h] at hlen
    exact List.length_eq_zero.mp hlen.symm
  · intro h; subst h; rfl

theorem head?_sortByTitle_mem {l : List ChatRecord} {r : ChatRecord}
    (h : (sortByTitle l).head? = some r) : r ∈ l := by
  cases hs : sortByTitle l with
  | nil => rw [hs] at h; exact absurd h (by simp)
  | cons a tail =>
      rw [hs] at h
      simp only [List.head?_cons, Option.some.injEq] at h
      subst h
      exact mem_sortByTitle.mp (by rw [hs]; exact List.mem_cons_self a tail)

theorem head?_sortByTitle_min {l : List ChatRecord} {r : ChatRecord}
    (h : (sortByTitle l).head? = some r) : ∀ x ∈ l, titleLe r x := by
  haveI : IsTotal ChatRecord titleLe := ⟨fun a b => lexLe_total a.title.toList b.title.toList⟩
  haveI : IsTrans ChatRecord titleLe := ⟨fun _ _ _ hab hbc => lexLe_trans hab hbc⟩
  have hsorted : List.Sorted titleLe (sortByTitle l) := List.sorted_insertionSort titleLe l
  cases hs : sortByTitle l with
  | nil => rw [hs] at h; exact absurd h (by simp)
  | cons a tail =>
      rw [hs] at h hsorted
      simp only [List.head?_cons, Option.some.injEq] at h
      subst h
      intro x hx
      have hx' : x ∈ sortByTitle l := mem_sortByTitle.mpr hx
      rw [hs] at hx'
      rcases List.mem_cons.mp hx' with rfl | hmem
      · exact lexLe_refl _
      · exact List.rel_of_sorted_cons hsorted x hmem

/-! ### Dictionary lemmas -/

theorem pget_pset_self {α : Type} (d : PDict α) (k : Int) (v : α) :
    pget (pset d k v) k = some v := by
  simp [pget, pset]

theorem pget_pset_ne {α : Type} (d : PDict α) {k q : Int} (v : α) (h : q ≠ k) :
    pget (pset d k v) q = pget d q := by
  simp [pget, pset, h]

/-! ### Registry helper lemmas -/

theorem optTagMem_iff (o : Option String) (s : Finset String) :
    optTagMem o s = true ↔ ∃ a ∈ s, o = some a := by
  cases o with
  | none => simp [optTagMem]
  | some v =>
      simp only [optTagMem, decide_eq_true_eq, Option.some.injEq]
      constructor
      · intro hv; exact ⟨v, hv, rfl⟩
      · rintro ⟨a, ha, rfl⟩; exact ha

theorem db_set_field_branch (db : List ChatRecord) (cid : Int) (v : Option String) (now : Nat) :
    (db_set_field db cid "branch" v now).getD db
      = db.map (fun r => if r.chat_id = cid then set_field_record r "branch" v now else r) := by
  simp [db_set_field]

theorem db_set_field_age (db : List ChatRecord) (cid : Int) (v : Option String) (now : Nat) :
    (db_set_field db cid "age" v now).getD db
      = db.map (fun r => if r.chat_id = cid then set_field_record r "age" v now else r) := by
  simp [db_set_field]

theorem db_set_field_level (db : List ChatRecord) (cid : Int) (v : Option String) (now : Nat) :
    (db_set_field db cid "level" v now).getD db
      = db.map (fun r => if r.chat_id = cid then set_field_record r "level" v now else r) := by
  simp [db_set_field]

theorem set_field_record_branch (r : ChatRecord) (v : Option String) (now : Nat) :
    (set_field_record r "branch" v now).branch = v := by
  simp [set_field_record]

/-- Point lookup through a keyed map that rewrites only rows with the given key
and preserves every row's key. -/
theorem db_get_chat_map_keyed (db : List ChatRecord) (cid : Int) (f : ChatRecord → ChatRecord)
    (hf : ∀ r, (f r).chat_id = r.chat_id) :
    db_get_chat (db.map (fun r => if r.chat_id = cid then f r else r)) cid
      = (db_get_chat db cid).map f := by
  induction db with
  | nil => rfl
  | cons r rest ih =>
      by_cases h : r.chat_id = cid
      · rw [List.map_cons, if_pos h]
        rw [db_get_chat, List.find?_cons_of_pos _ (by simp [hf, h]),
            db_get_chat, List.find?_cons_of_pos _ (by simp [h])]
        rfl
      · rw [List.map_cons, if_neg h]
        rw [db_get_chat, List.find?_cons_of_neg _ (by simp [h]),
            db_get_chat, List.find?_cons_of_neg _ (by simp [h])]
        exact ih

/-- A keyed map leaves point lookups of every other key untouched. -/
theorem db_get_chat_map_keyed_ne (db : List ChatRecord) (cid cid' : Int) (hne : cid' ≠ cid)
    (f : ChatRecord → ChatRecord) (hf : ∀ r, (f r).chat_id = r.chat_id) :
    db_get_chat (db.map (fun r => if r.chat_id = cid then f r else r)) cid'
      = db_get_chat db cid' := by
  induction db with
  | nil => rfl
  | cons r rest ih =>
      by_cases h : r.chat_id = cid
      · rw [List.map_cons, if_pos h]
        rw [db_get_chat, List.find?_cons_of_neg _ (by simp [hf, h]; omega),
            db_get_chat, List.find?_cons_of_neg _ (by simp [h]; omega)]
        exact ih
      · rw [List.map_cons, if_neg h]
        rw [db_get_chat, db_get_chat, List.find?_cons, List.find?_cons]
        cases hpred : decide (r.chat_id = cid')
        · exact ih
        · rfl

/-! ### C1 — tag-filtered broadcast target query -/

/-- C1: `db_get_chats_by_filter` returns the empty list whenever the selected
age set or the selected level set is empty, and otherwise a chat id is in the
result exactly when some registry row carries that id, has the requested
branch, an age in the age set and a level in the level set. -/
theorem db_get_chats_by_filter_correct (db : List ChatRecord) (branch : String)
    (ages levels : Finset String) :
    (ages = ∅ ∨ levels = ∅ → db_get_chats_by_filter db branch ages levels = []) ∧
    (∀ cid : Int, cid ∈ db_get_chats_by_filter db branch ages levels ↔
      (ages ≠ ∅ ∧ levels ≠ ∅ ∧ ∃ r ∈ db, r.chat_id = cid ∧ r.branch = some branch ∧
        (∃ a ∈ ages, r.age = some a) ∧ (∃ l ∈ levels, r.level = some l))) := by
  constructor
  · intro h
    rw [db_get_chats_by_filter, if_pos h]
  · intro cid
    by_cases h : ages = ∅ ∨ levels = ∅
    · rw [db_get_chats_by_filter, if_pos h]
      refine iff_of_false (List.not_mem_nil cid) ?_
      rintro ⟨ha, hl, -⟩
      rcases h with h | h
      · exact ha h
      · exact hl h
    · rw [db_get_chats_by_filter, if_neg h]
      push_neg at h
      simp only [List.mem_map]
      constructor
      · rintro ⟨r, hr, rfl⟩
        have hr' := mem_sortByTitle.mp hr
        rw [List.mem_filter] at hr'
        obtain ⟨hmem, hp⟩ := hr'
        simp only [Bool.and_eq_true, decide_eq_true_eq, optTagMem_iff] at hp
        exact ⟨h.1, h.2, r, hmem, rfl, hp.1.1, hp.1.2, hp.2⟩
      · rintro ⟨-, -, r, hmem, rfl, hb, ha, hl⟩
        refine ⟨r, ?_, rfl⟩
        rw [mem_sortByTitle, List.mem_filter]
        refine ⟨hmem, ?_⟩
        simp only [Bool.and_eq_true, decide_eq_true_eq, optTagMem_iff]
        exact ⟨⟨hb, ha⟩, hl⟩

theorem db_get_chats_by_filter_witness :
    (5 : Int) ∈ db_get_chats_by_filter
      [⟨5, "A", "group", some "krylatskoe", some "kids", some "pro", 0⟩,
       ⟨6, "B", "group", some "odintsovo", some "kids", some "pro", 0⟩]
      "krylatskoe" {"kids"} {"pro"} :=
  ((db_get_chats_by_filter_correct _ "krylatskoe" {"kids"} {"pro"}).2 5).mpr
    ⟨by decide, by decide,
     ⟨5, "A", "group", some "krylatskoe", some "kids", some "pro", 0⟩,
     by simp, rfl, rfl, ⟨"kids", by decide, rfl⟩, ⟨"pro", by decide, rfl⟩⟩

/-! ### C8 — next chat missing a branch -/

theorem next_missing_branch_none_iff (db : List ChatRecord) :
    db_get_next_missing_branch_chat db = none ↔ ∀ r ∈ db, r.branch ≠ none := by
  rw [db_get_next_missing_branch_chat, List.head?_eq_none_iff, sortByTitle_eq_nil_iff,
      List.filter_eq_nil_iff]
  simp only [decide_eq_true_eq]

theorem next_missing_branch_some (db : List ChatRecord) (r : ChatRecord)
    (h : db_get_next_missing_branch_chat db = some r) :
    r ∈ db ∧ r.branch = none ∧
      (∀ r' ∈ db, r'.branch = none → lexLe r.title.toList r'.title.toList = true) := by
  rw [db_get_next_missing_branch_chat] at h
  have hmem := head?_sortByTitle_mem h
  rw [List.mem_filter] at hmem
  refine ⟨hmem.1, by simpa using hmem.2, ?_⟩
  intro r' hr' hbr'
  exact head?_sortByTitle_min h r' (List.mem_filter.mpr ⟨hr', by simpa using hbr'⟩)

/-- C8: the next-missing-branch query returns `none` exactly when every row has
a branch; otherwise it returns a row with NULL branch whose title is minimal
among all NULL-branch rows; and after assigning that row's branch, a repeated
query only ever returns a row of title at least as large — so repeated
tag-and-requery walks the untagged rows in ascending title order until none
remain. -/
theorem db_get_next_missing_branch_chat_correct (db : List ChatRecord) :
    (db_get_next_missing_branch_chat db = none ↔ ∀ r ∈ db, r.branch ≠ none) ∧
    (∀ r, db_get_next_missing_branch_chat db = some r →
      r ∈ db ∧ r.branch = none ∧
      (∀ r' ∈ db, r'.branch = none → lexLe r.title.toList r'.title.toList = true) ∧
      (∀ (b : String) (now : Nat) (r2 : ChatRecord),
        db_get_next_missing_branch_chat
          ((db_set_field db r.chat_id "branch" (some b) now).getD db) = some r2 →
        lexLe r.title.toList r2.title.toList = true)) := by
  refine ⟨next_missing_branch_none_iff db, ?_⟩
  intro r h
  obtain ⟨hmem, hbr, hmin⟩ := next_missing_branch_some db r h
  refine ⟨hmem, hbr, hmin, ?_⟩
  intro b now r2 h2
  rw [db_set_field_branch] at h2
  obtain ⟨hmem2, hbr2, -⟩ := next_missing_branch_some _ r2 h2
  rw [List.mem_map] at hmem2
  obtain ⟨r0, hr0, hr0eq⟩ := hmem2
  by_cases hid : r0.chat_id = r.chat_id
  · rw [if_pos hid] at hr0eq
    rw [← hr0eq, set_field_record_branch] at hbr2
    exact absurd hbr2 (by simp)
  · rw [if_neg hid] at hr0eq
    subst hr0eq
    exact hmin r0 hr0 hbr2

theorem db_get_next_missing_branch_chat_witness :
    db_get_next_missing_branch_chat
        [⟨1, "B", "group", none, none, none, 0⟩, ⟨2, "A", "group", none, none, none, 0⟩]
      = some ⟨2, "A", "group", none, none, none, 0⟩ ∧
    lexLe ("A" : String).toList ("B" : String).toList = true :=
  ⟨rfl, ((db_get_next_missing_branch_chat_correct
      [⟨1, "B", "group", none, none, none, 0⟩, ⟨2, "A", "group", none, none, none, 0⟩]).2
      ⟨2, "A", "group", none, none, none, 0⟩ rfl).2.2.1
      ⟨1, "B", "group", none, none, none, 0⟩ (by simp) rfl⟩

/-! ### C4 — upsert is a no-op for non-groups and never touches tags -/

/-- C4: `db_upsert_chat` leaves the registry unchanged when the chat kind is
neither group nor supergroup; and for a chat id that is already registered it
rewrites only title, chat kind and `updated_at` of that row — the branch, age
and level tags are carried over from the old row — while every other chat id
resolves exactly as before. -/
theorem db_upsert_chat_correct (db : List ChatRecord) (cid : Int) (title : Option String)
    (ct : String) (now : Nat) :
    (ct ≠ "group" → ct ≠ "supergroup" → db_upsert_chat db cid title ct now = db) ∧
    (∀ r, db_get_chat db cid = some r → (ct = "group" ∨ ct = "supergroup") →
      db_get_chat (db_upsert_chat db cid title ct now) cid =
        some { r with title := title_or_id title cid, chat_type := ct, updated_at := now } ∧
      (∀ cid', cid' ≠ cid →
        db_get_chat (db_upsert_chat db cid title ct now) cid' = db_get_chat db cid')) := by
  constructor
  · intro h1 h2
    rw [db_upsert_chat, if_pos ⟨h1, h2⟩]
  · intro r hr hct
    have hcond : ¬ (ct ≠ "group" ∧ ct ≠ "supergroup") := by
      rcases hct with h | h <;> simp [h]
    have hr' : db.find? (fun x => decide (x.chat_id = cid)) = some r := hr
    have hpr : decide (r.chat_id = cid) = true := by
      have hp := List.find?_some hr'
      exact hp
    have hany : db.any (fun r => decide (r.chat_id = cid)) = true := by
      rw [List.any_eq_true]
      exact ⟨r, List.mem_of_find?_eq_some hr', hpr⟩
    rw [db_upsert_chat, if_neg hcond, if_pos hany]
    constructor
    · have hmap := db_get_chat_map_keyed db cid
        (fun x => { x with title := title_or_id title cid, chat_type := ct, updated_at := now })
        (fun _ => rfl)
      rw [hr] at hmap
      exact hmap
    · intro cid' hne
      exact db_get_chat_map_keyed_ne db cid cid' hne
        (fun x => { x with title := title_or_id title cid, chat_type := ct, updated_at := now })
        (fun _ => rfl)

theorem db_upsert_chat_witness :
    db_get_chat (db_upsert_chat
        [⟨7, "Old", "group", some "odintsovo", some "kids", none, 0⟩]
        7 (some "New") "supergroup" 5) 7
      = some ⟨7, "New", "supergroup", some "odintsovo", some "kids", none, 5⟩ :=
  ((db_upsert_chat_correct [⟨7, "Old", "group", some "odintsovo", some "kids", none, 0⟩]
      7 (some "New") "supergroup" 5).2
      ⟨7, "Old", "group", some "odintsovo", some "kids", none, 0⟩ rfl (Or.inr rfl)).1

/-! ### C3 — fan-out tally -/

theorem fanout_foldl (delivery_fails : Int → Bool) (chat_ids : List Int) :
    ∀ acc : List Int × Nat × Nat,
      List.foldl
        (fun acc cid =>
          if delivery_fails cid then (acc.1 ++ [cid], acc.2.1, acc.2.2 + 1)
          else (acc.1 ++ [cid], acc.2.1 + 1, acc.2.2)) acc chat_ids
      = (acc.1 ++ chat_ids,
         acc.2.1 + (chat_ids.filter (fun c => !(delivery_fails c))).length,
         acc.2.2 + (chat_ids.filter delivery_fails).length) := by
  induction chat_ids with
  | nil => intro acc; simp
  | cons c rest ih =>
      intro acc
      rw [List.foldl_cons]
      cases hc : delivery_fails c
      · rw [if_neg (by simp [hc]), ih]
        simp [List.filter_cons, hc]
        omega
      · rw [if_pos (by simp [hc]), ih]
        simp [List.filter_cons, hc]
        omega

/-- C3: the fan-out loop attempts every one of the targets, in order,
regardless of which deliveries fail; the reported tally counts exactly the
non-failing targets as successes and the failing targets as failures, so the
successes are the total target count minus the failure count. -/
theorem fanout_correct (chat_ids : List Int) (delivery_fails : Int → Bool) :
    (fanout chat_ids delivery_fails).1 = chat_ids ∧
    (fanout chat_ids delivery_fails).2.1
        = (chat_ids.filter (fun c => !(delivery_fails c))).length ∧
    (fanout chat_ids delivery_fails).2.2 = (chat_ids.filter delivery_fails).length ∧
    (fanout chat_ids delivery_fails).2.1
        = chat_ids.length - (chat_ids.filter delivery_fails).length := by
  have hsplit : (chat_ids.filter (fun c => !(delivery_fails c))).length
      + (chat_ids.filter delivery_fails).length = chat_ids.length := by
    induction chat_ids with
    | nil => rfl
    | cons c rest ih =>
        cases hc : delivery_fails c <;> simp [List.filter_cons, hc] <;> omega
  rw [fanout, fanout_foldl delivery_fails chat_ids ([], 0, 0)]
  refine ⟨by simp, by simp, by simp, ?_⟩
  simp
  omega

/-! ### C5 — stale-action guard -/

/-- C5 counterexample: with no edit session at all (stage absent), the
back-navigation callback edit_back_to_list is not answered "Неактуально" and
does mutate the session — it forces the stage to `edit_pick_chat`. -/
theorem stale_guard_counterexample :
    pget ((edit_back_to_list (emptyState []) 1).1).EDIT_STATE 1 = some "edit_pick_chat" ∧
    pget (emptyState []).EDIT_STATE 1 = none ∧
    (edit_back_to_list (emptyState []) 1).2 ≠ CbAnswer.toast "Неактуально" := by
  refine ⟨rfl, rfl, ?_⟩
  decide

/-- C5 (amended): every stage-guarded callback handler (branch assignment,
age pick, level pick, edit chat pick, manual-pick select-all) answers
"Неактуально" and leaves the whole state untouched whenever its required stage
differs from the session's current stage, including an absent session; the
edit flow's pagination and back-navigation callbacks carry no such guard —
edit_back_to_list in particular sets the edit stage unconditionally. -/
theorem stale_guard_amended (s : BotState) (uid : Int) (v : String) (cid : Int) (now : Nat) :
    (pget s.BR_STATE uid ≠ some "br_choose_branch" →
      br_set_branch s uid v now = (s, CbAnswer.toast "Неактуально")) ∧
    (pget s.AL_STATE uid ≠ some "al_choose_age" →
      al_pick_age s uid v = (s, CbAnswer.toast "Неактуально")) ∧
    (pget s.AL_STATE uid ≠ some "al_choose_level" →
      al_pick_level s uid v now = (s, CbAnswer.toast "Неактуально")) ∧
    (pget s.EDIT_STATE uid ≠ some "edit_pick_chat" →
      edit_pick_chat s uid cid = (s, CbAnswer.toast "Неактуально")) ∧
    (pget s.STATE uid ≠ some "bc_manual_pick" →
      bc_mpick_all s uid = (s, CbAnswer.toast "Неактуально")) ∧
    pget ((edit_back_to_list s uid).1).EDIT_STATE uid = some "edit_pick_chat" := by
  refine ⟨?_, ?_, ?_, ?_, ?_, ?_⟩
  · intro h; rw [br_set_branch, if_pos h]
  · intro h; rw [al_pick_age, if_pos h]
  · intro h; rw [al_pick_level, if_pos h]
  · intro h; rw [edit_pick_chat, if_pos h]
  · intro h; rw [bc_mpick_all, if_pos h]
  · simp [edit_back_to_list, kb_edit_chat_list, pget_pset_self]

theorem stale_guard_witness :
    br_set_branch (emptyState []) 1 "krylatskoe" 0
      = (emptyState [], CbAnswer.toast "Неактуально") :=
  (stale_guard_amended (emptyState []) 1 "krylatskoe" 5 0).1 (by decide)

/-! ### C6 — non-owner wizard actions -/

/-- C6 failing input, evaluated: user 999 is not the owner (owner id 42), yet
the unguarded callback sequence edit_back_to_list, edit_chat_-1001,
edit_clear_branch — none of which checks is_owner_user_id — runs for them and
clears the stored branch of chat -1001 in the registry. -/
theorem nonowner_edit_callbacks_mutate :
    is_owner_user_id 42 999 = false ∧
    (db_get_chat c6_db (-1001)).map (fun r => r.branch) = some (some "krylatskoe") ∧
    (db_get_chat ((edit_clear_branch
        ((edit_pick_chat ((edit_back_to_list (emptyState c6_db) 999).1) 999 (-1001)).1)
        999 1).1.db) (-1001)).map (fun r => r.branch) = some none := by
  refine ⟨rfl, rfl, ?_⟩
  rfl

/-! ### C7 — the combined age+level save is not atomic -/

theorem set_field_record_age_eq (r : ChatRecord) (v : Option String) (now : Nat) :
    set_field_record r "age" v now = { r with age := v, updated_at := now } := rfl

theorem set_field_record_level_eq (r : ChatRecord) (v : Option String) (now : Nat) :
    set_field_record r "level" v now = { r with level := v, updated_at := now } := rfl

/-- C7 counterexample: with the age write committed and the level write
failing, the stored record ends with the new age and the old level — exactly
one of the two new values written — refuting atomicity of the combined save. -/
theorem al_save_age_level_counterexample :
    (al_save_age_level [⟨-50, "A", "group", some "krylatskoe", some "kids", some "pro", 0⟩]
        (-50) "adult" "middle" true false 1).2 = false ∧
    (al_save_age_level [⟨-50, "A", "group", some "krylatskoe", some "kids", some "pro", 0⟩]
        (-50) "adult" "middle" true false 1).1
      = [⟨-50, "A", "group", some "krylatskoe", some "adult", some "pro", 1⟩] :=
  ⟨rfl, rfl⟩

/-- C7 (amended): the combined save issues two separately committed writes,
age first. If the age write fails nothing is changed; if the age write
succeeds and the level write fails, the record keeps the new age together
with the old level (so the save is not atomic); when both writes succeed both
fields are updated. -/
theorem al_save_age_level_correct (db : List ChatRecord) (cid : Int) (age level : String)
    (now : Nat) (r : ChatRecord) (h : db_get_chat db cid = some r) :
    (∀ ok2 : Bool, al_save_age_level db cid age level false ok2 now = (db, false)) ∧
    ((al_save_age_level db cid age level true false now).2 = false ∧
      db_get_chat (al_save_age_level db cid age level true false now).1 cid
        = some { r with age := some age, updated_at := now }) ∧
    ((al_save_age_level db cid age level true true now).2 = true ∧
      db_get_chat (al_save_age_level db cid age level true true now).1 cid
        = some { r with age := some age, level := some level, updated_at := now }) := by
  have hage : db_get_chat ((db_set_field db cid "age" (some age) now).getD db) cid
      = some (set_field_record r "age" (some age) now) := by
    rw [db_set_field_age]
    have hmap := db_get_chat_map_keyed db cid (fun x => set_field_record x "age" (some age) now)
        (fun _ => rfl)
    rw [h] at hmap
    exact hmap
  refine ⟨fun _ => rfl, ⟨rfl, ?_⟩, ⟨rfl, ?_⟩⟩
  · have h1 : (al_save_age_level db cid age level true false now).1
        = (db_set_field db cid "age" (some age) now).getD db := rfl
    rw [h1, hage, set_field_record_age_eq]
  · have h2 : (al_save_age_level db cid age level true true now).1
        = (db_set_field ((db_set_field db cid "age" (some age) now).getD db)
            cid "level" (some level) now).getD
            ((db_set_field db cid "age" (some age) now).getD db) := rfl
    rw [h2, db_set_field_level]
    have hmap := db_get_chat_map_keyed ((db_set_field db cid "age" (some age) now).getD db)
        cid (fun x => set_field_record x "level" (some level) now) (fun _ => rfl)
    rw [hage] at hmap
    rw [hmap, Option.map_some', set_field_record_age_eq, set_field_record_level_eq]

theorem al_save_age_level_witness :
    db_get_chat (al_save_age_level [⟨3, "A", "group", none, none, none, 0⟩]
        3 "kids" "pro" true true 1).1 3
      = some ⟨3, "A", "group", none, some "kids", some "pro", 1⟩ :=
  ((al_save_age_level_correct [⟨3, "A", "group", none, none, none, 0⟩] 3 "kids" "pro" 1
      ⟨3, "A", "group", none, none, none, 0⟩ rfl).2.2).2

/-! ### C2 — the manual-pick select-all toggle -/

theorem bc_mpick_all_eq (s : BotState) (uid : Int) (S : Finset Int)
    (h1 : pget s.STATE uid = some "bc_manual_pick")
    (h2 : pget s.BC_MANUAL_SELECTED uid = some S) :
    bc_mpick_all s uid =
      (kb_bc_manual_pick
        { s with BC_MANUAL_SELECTED :=
                   pset s.BC_MANUAL_SELECTED uid
                     (if S = bc_manual_candidate_ids s uid then ∅
                      else bc_manual_candidate_ids s uid) }
        uid, CbAnswer.toast "Ок") := by
  rw [bc_mpick_all, if_neg (by rw [h1]; exact fun hc => hc rfl), h2]
  rfl

theorem bc_mpick_all_fst_proj (s : BotState) (uid : Int) (S : Finset Int)
    (h1 : pget s.STATE uid = some "bc_manual_pick")
    (h2 : pget s.BC_MANUAL_SELECTED uid = some S) :
    ((bc_mpick_all s uid).1.db = s.db ∧
     (bc_mpick_all s uid).1.STATE = s.STATE ∧
     (bc_mpick_all s uid).1.BC_SELECTED_BRANCH = s.BC_SELECTED_BRANCH) ∧
    pget (bc_mpick_all s uid).1.BC_MANUAL_SELECTED uid
      = some (if S = bc_manual_candidate_ids s uid then ∅
              else bc_manual_candidate_ids s uid) := by
  rw [bc_mpick_all_eq s uid S h1 h2]
  exact ⟨⟨rfl, rfl, rfl⟩, pget_pset_self _ _ _⟩

theorem bc_manual_candidate_ids_congr {t s : BotState} (uid : Int)
    (hdb : t.db = s.db) (hbr : t.BC_SELECTED_BRANCH = s.BC_SELECTED_BRANCH) :
    bc_manual_candidate_ids t uid = bc_manual_candidate_ids s uid := by
  simp only [bc_manual_candidate_ids, pget, hdb, hbr]

/-- C2 counterexample: in the manual-pick stage with candidate chats 1 and 2
and the current selection holding only chat 1, invoking select-all twice in a
row ends with the empty selection — not the original selection. -/
theorem bc_mpick_all_double_counterexample :
    pget ((bc_mpick_all (bc_mpick_all c2_s0 7).1 7).1).BC_MANUAL_SELECTED 7 = some ∅ ∧
    pget c2_s0.BC_MANUAL_SELECTED 7 = some {1} ∧
    (∅ : Finset Int) ≠ {1} := by
  refine ⟨?_, rfl, by decide⟩
  rfl

/-- C2 (amended): from the manual-pick stage with current selection S,
toggling select-all twice restores the selection to S exactly when S was
empty or S was the whole candidate set; any other selection ends empty after
the double toggle. -/
theorem bc_mpick_all_double (s : BotState) (uid : Int) (S : Finset Int)
    (h1 : pget s.STATE uid = some "bc_manual_pick")
    (h2 : pget s.BC_MANUAL_SELECTED uid = some S) :
    pget ((bc_mpick_all (bc_mpick_all s uid).1 uid).1).BC_MANUAL_SELECTED uid = some S
      ↔ (S = ∅ ∨ S = bc_manual_candidate_ids s uid) := by
  obtain ⟨⟨hdb, hstate, hbr⟩, hsel⟩ := bc_mpick_all_fst_proj s uid S h1 h2
  have h1' : pget (bc_mpick_all s uid).1.STATE uid = some "bc_manual_pick" := by
    rw [pget] at h1 ⊢
    rw [hstate]
    exact h1
  have hAcongr : bc_manual_candidate_ids (bc_mpick_all s uid).1 uid
      = bc_manual_candidate_ids s uid := bc_manual_candidate_ids_congr uid hdb hbr
  obtain ⟨-, hsel2⟩ := bc_mpick_all_fst_proj (bc_mpick_all s uid).1 uid _ h1' hsel
  rw [hAcongr] at hsel2
  rw [hsel2]
  by_cases hSA : S = bc_manual_candidate_ids s uid
  · rw [if_pos hSA]
    by_cases hAe : (∅ : Finset Int) = bc_manual_candidate_ids s uid
    · rw [if_pos hAe]
      simp [hSA, ← hAe]
    · rw [if_neg hAe]
      simp [hSA]
  · rw [if_neg hSA, if_pos rfl]
    simp only [Option.some.injEq]
    constructor
    · intro he; left; exact he.symm
    · rintro (rfl | hSA2)
      · rfl
      · exact absurd hSA2 hSA

theorem bc_mpick_all_double_witness :
    (pget ((bc_mpick_all (bc_mpick_all c2_s0 7).1 7).1).BC_MANUAL_SELECTED 7 = some {1}
      ↔ (({1} : Finset Int) = ∅ ∨ ({1} : Finset Int) = bc_manual_candidate_ids c2_s0 7)) :=
  bc_mpick_all_double c2_s0 7 {1} rfl rfl

/-! ### C10 — owner id 0 authorizes nobody -/

/-- C10: when the parsed owner id is 0 (the OWNER_ID variable absent, the
default "0", or an unparsable value), is_owner_user_id rejects every user id,
including a user id of 0. -/
theorem owner_zero_rejects_all (raw : Option String) (uid : Int)
    (h : owner_id_of raw = 0) : is_owner_user_id (owner_id_of raw) uid = false := by
  rw [h, is_owner_user_id]
  simp

theorem owner_zero_rejects_all_witness :
    is_owner_user_id (owner_id_of (some "abc")) 0 = false :=
  owner_zero_rejects_all (some "abc") 0 rfl

/-! ### C9 — manual-pick token round trip -/

theorem takeWhile_append_all (p : Char → Bool) (a b : List Char)
    (h : ∀ c ∈ a, p c = true) :
    (a ++ b).takeWhile p = a ++ b.takeWhile p := by
  induction a with
  | nil => simp
  | cons x xs ih =>
      simp only [List.cons_append, List.takeWhile_cons]
      rw [h x (by simp)]
      simp [ih (fun c hc => h c (by simp [hc]))]

theorem digitChar_isDigit {d : Nat} (h : d < 10) : (Nat.digitChar d).isDigit = true := by
  interval_cases d <;> decide

theorem digitVal_digitChar {d : Nat} (h : d < 10) : digitVal (Nat.digitChar d) = d := by
  interval_cases d <;> decide

theorem isDigit_ne_minus {c : Char} (h : c.isDigit = true) : c ≠ '-' := by
  intro he; subst he; exact absurd h (by decide)

theorem isDigit_ne_underscore {c : Char} (h : c.isDigit = true) : c ≠ '_' := by
  intro he; subst he; exact absurd h (by decide)

theorem pyStrNat_ne_nil (n : Nat) : pyStrNat n ≠ [] := by
  rw [pyStrNat]
  by_cases h : n = 0
  · rw [if_pos h]; simp
  · rw [if_neg h]
    have hd : Nat.digits 10 n ≠ [] := Nat.digits_ne_nil_iff_ne_zero.mpr h
    intro hcon
    have hlen := congrArg List.length hcon
    simp only [List.length_map, List.length_reverse, List.length_nil] at hlen
    exact hd (List.length_eq_zero.mp hlen)

theorem pyStrNat_all_digits (n : Nat) : ∀ c ∈ pyStrNat n, c.isDigit = true := by
  intro c hc
  rw [pyStrNat] at hc
  by_cases h : n = 0
  · rw [if_pos h] at hc
    simp only [List.mem_singleton] at hc
    subst hc; decide
  · rw [if_neg h] at hc
    simp only [List.mem_map, List.mem_reverse] at hc
    obtain ⟨d, hd, rfl⟩ := hc
    exact digitChar_isDigit (Nat.digits_lt_base (by omega) hd)

theorem pyParseNat_pyStrNat (n : Nat) : pyParseNat (pyStrNat n) = n := by
  rw [pyStrNat]
  by_cases h : n = 0
  · rw [if_pos h, h]; rfl
  · rw [if_neg h, pyParseNat, List.map_reverse, List.map_map]
    have hmapid : ((Nat.digits 10 n).reverse).map (digitVal ∘ Nat.digitChar)
        = ((Nat.digits 10 n).reverse).map id := by
      apply List.map_congr_left
      intro d hd
      simp only [Function.comp_apply, id_eq]
      exact digitVal_digitChar (Nat.digits_lt_base (by omega) (List.mem_reverse.mp hd))
    rw [hmapid, List.map_id, List.reverse_reverse]
    exact Nat.ofDigits_digits 10 n

theorem pyLstripMinus_pyStrNat (n : Nat) : pyLstripMinus (pyStrNat n) = pyStrNat n := by
  cases hl : pyStrNat n with
  | nil => rfl
  | cons c cs =>
      have hc : c.isDigit = true :=
        pyStrNat_all_digits n c (by rw [hl]; exact List.mem_cons_self _ _)
      rw [pyLstripMinus, List.dropWhile_cons,
          if_neg (by simpa using isDigit_ne_minus hc)]

theorem pyIsDigitStr_pyStrNat (n : Nat) : pyIsDigitStr (pyStrNat n) = true := by
  rw [pyIsDigitStr]
  have h1 : (pyStrNat n).isEmpty = false := by
    cases hl : pyStrNat n with
    | nil => exact absurd hl (pyStrNat_ne_nil n)
    | cons c cs => rfl
  rw [h1]
  simp only [Bool.not_false, Bool.true_and]
  rw [List.all_eq_true]
  exact fun c hc => pyStrNat_all_digits n c hc

theorem pyStrInt_ne_underscore (i : Int) : ∀ c ∈ pyStrInt i, c ≠ '_' := by
  intro c hc
  rw [pyStrInt] at hc
  by_cases h : i < 0
  · rw [if_pos h] at hc
    rcases List.mem_cons.mp hc with rfl | hc2
    · decide
    · exact isDigit_ne_underscore (pyStrNat_all_digits _ c hc2)
  · rw [if_neg h] at hc
    exact isDigit_ne_underscore (pyStrNat_all_digits _ c hc)

theorem lastSegment_token (s : List Char) (hs : ∀ c ∈ s, c ≠ '_') :
    lastSegment ("bc_mpick_".toList ++ s) = s := by
  rw [lastSegment, List.reverse_append]
  rw [takeWhile_append_all _ _ _
      (by intro c hc; simpa using hs c (List.mem_reverse.mp hc))]
  have hpre : ("bc_mpick_".toList.reverse.takeWhile (fun c => decide (c ≠ '_'))) = [] := rfl
  rw [hpre, List.append_nil, List.reverse_reverse]

theorem pyStartsWith_token (i : Int) :
    pyStartsWith "bc_mpick_".toList (kb_bc_manual_pick_token i) = true := by
  rw [pyStartsWith, kb_bc_manual_pick_token, decide_eq_true_eq]
  exact List.take_left _ _

theorem pyLstrip_token_digits (i : Int) :
    pyIsDigitStr (pyLstripMinus (lastSegment (kb_bc_manual_pick_token i))) = true := by
  rw [kb_bc_manual_pick_token, lastSegment_token _ (pyStrInt_ne_underscore i), pyStrInt]
  by_cases h : i < 0
  · rw [if_pos h, pyLstripMinus, List.dropWhile_cons, if_pos (by decide)]
    rw [show (pyStrNat i.natAbs).dropWhile (fun c => decide (c = '-')) = pyStrNat i.natAbs
          from pyLstripMinus_pyStrNat i.natAbs]
    exact pyIsDigitStr_pyStrNat _
  · rw [if_neg h, pyLstripMinus_pyStrNat]
    exact pyIsDigitStr_pyStrNat _

theorem pyInt_pyStrInt (i : Int) : pyInt (pyStrInt i) = some i := by
  rw [pyInt, pyStrInt]
  by_cases h : i < 0
  · rw [if_pos h]
    rw [if_pos (show ('-' :: pyStrNat i.natAbs).head? = some '-' from rfl)]
    rw [show ('-' :: pyStrNat i.natAbs).tail = pyStrNat i.natAbs from rfl]
    rw [if_pos (pyIsDigitStr_pyStrNat i.natAbs), pyParseNat_pyStrNat]
    congr 1
    omega
  · rw [if_neg h]
    have hne : (pyStrNat i.toNat).head? ≠ some '-' := by
      cases hl : pyStrNat i.toNat with
      | nil => simp
      | cons c cs =>
          simp only [List.head?_cons, ne_eq, Option.some.injEq]
          exact isDigit_ne_minus
            (pyStrNat_all_digits _ c (by rw [hl]; exact List.mem_cons_self _ _))
    rw [if_neg hne, if_pos (pyIsDigitStr_pyStrNat i.toNat), pyParseNat_pyStrNat]
    congr 1
    omega

/-- C9: for every chat id, including negative-signed ones, the bc_mpick_ token
emitted for a manual-pick row is parsed back by the toggle handler into
exactly that chat id. -/
theorem bc_mpick_token_roundtrip (cid : Int) :
    bc_mpick_toggle_parse (kb_bc_manual_pick_token cid) = some cid := by
  have hcond : (pyStartsWith "bc_mpick_".toList (kb_bc_manual_pick_token cid)
      && pyIsDigitStr (pyLstripMinus (lastSegment (kb_bc_manual_pick_token cid)))) = true := by
    rw [Bool.and_eq_true]
    exact ⟨pyStartsWith_token cid, pyLstrip_token_digits cid⟩
  rw [bc_mpick_toggle_parse, if_pos hcond, kb_bc_manual_pick_token,
      lastSegment_token _ (pyStrInt_ne_underscore cid)]
  exact pyInt_pyStrInt cid

end AFC
